import Mathlib

/-!
Verification development for the Primacron realtime gateway core.

The definitions below are a shallow embedding of the routing and
validation plane of the gateway (source: the main server module that
defines the Primacron prototype).  JavaScript runtime values are
modelled by an explicit inductive type, the Redis-backed session
directory by an association-list store, and the event bus by explicit
lists of trace events with typed channel names.
-/

namespace Primacron

/-- JavaScript runtime values, as far as the data plane of the gateway
observes them.  Error objects get their own constructor so that
truthiness and typeof behave as in the source. -/
inductive JSVal where
  | null
  | undefined
  | bool (b : Bool)
  | num (n : Int)
  | str (s : String)
  | arr (xs : List JSVal)
  | obj (fields : List (String × JSVal))
  | errorObj (msg : String)

/-- JavaScript truthiness of a value. -/
def truthy : JSVal → Bool
  | .null => false
  | .undefined => false
  | .bool b => b
  | .num n => n != 0
  | .str s => s != ""
  | .arr _ => true
  | .obj _ => true
  | .errorObj _ => true

/-- The JavaScript typeof operator.  Note that typeof null is the
string "object". -/
def typeofStr : JSVal → String
  | .null => "object"
  | .undefined => "undefined"
  | .bool _ => "boolean"
  | .num _ => "number"
  | .str _ => "string"
  | .arr _ => "object"
  | .obj _ => "object"
  | .errorObj _ => "object"

/-- Array.isArray. -/
def isArray : JSVal → Bool
  | .arr _ => true
  | _ => false

/-- The class tag produced by Object.prototype.toString, with the
surrounding brackets stripped, exactly as computed by the dispatch
switch of the incoming broadcast handler. -/
def jsClass : JSVal → String
  | .null => "Null"
  | .undefined => "Undefined"
  | .bool _ => "Boolean"
  | .num _ => "Number"
  | .str _ => "String"
  | .arr _ => "Array"
  | .obj _ => "Object"
  | .errorObj _ => "Error"

/-- JavaScript strict equality.  It is value equality on
primitives; two object or array values obtained from distinct JSON
parses are never reference-equal, which the model renders by returning
false on the structured constructors. -/
def jsStrictEq : JSVal → JSVal → Bool
  | .null, .null => true
  | .undefined, .undefined => true
  | .bool a, .bool b => a == b
  | .num a, .num b => a == b
  | .str a, .str b => a == b
  | _, _ => false

/-- Strict comparison with the boolean literal false, as in the
validator callback test ok === false. -/
def isFalseVal : JSVal → Bool
  | .bool false => true
  | _ => false

/-- Loose equality with null (the JavaScript test v == null), true
exactly for null and undefined. -/
def isNullish : JSVal → Bool
  | .null => true
  | .undefined => true
  | _ => false

/-- Key membership for object fields (the hasOwnProperty part of the
JavaScript in operator on plain JSON objects). -/
def hasKey (k : String) : List (String × JSVal) → Bool
  | [] => false
  | (k2, _) :: rest => k2 == k || hasKey k rest

/-- Field access on object fields; a missing key reads as undefined. -/
def getKey (k : String) : List (String × JSVal) → JSVal
  | [] => .undefined
  | (k2, v) :: rest => if k2 == k then v else getKey k rest

/-- String coercion of a value used as a property key or in string
concatenation.  The array branch approximates Array.prototype.toString
on the element values; in the gateway the coerced values are the
event-name and id strings of the wire protocol, where the coercion is
the identity. -/
def jsPropKey : JSVal → String
  | .str s => s
  | .num n => toString n
  | .bool b => toString b
  | .null => "null"
  | .undefined => "undefined"
  | .arr _ => ""
  | .obj _ => "[object Object]"
  | .errorObj m => "Error: " ++ m

/-! ## Pre-compiled HTTP responses (Primacron.prototype.end) -/

/-- One pre-compiled response document: fields status, type and
description, serialized once at startup. -/
structure EndDoc where
  status : Nat
  type : String
  description : String
deriving DecidableEq

/-- The response table built at startup, with the fallback to the
bad-request document used by Primacron.prototype.end when the type is
unknown. -/
def endDoc : String → EndDoc
  | "broken" => ⟨400, "broken", "Received an incorrect JSON document."⟩
  | "invalid" => ⟨400, "invalid", "Received an invalid JSON document."⟩
  | "unknown socket" => ⟨404, "unknown socket", "The requested spark was not found."⟩
  | "sending" => ⟨200, "sending", "Sending the message to the spark."⟩
  | _ => ⟨400, "bad request", "Bad request, make sure you are hitting the correct endpoint."⟩

/-! ## Configuration -/

/-- The per-node options captured by the Primacron constructor.  The
source stores the key prefix in a field called namespace, which is a
reserved word here and is rendered as nspace. -/
structure Config where
  broadcast : String
  endpoint : String
  redirect : Option String
  nspace : String
  timeout : Nat
  networkaddress : String
  port : Option Nat

/-- The constructor defaults: broadcast path, endpoint, no redirect,
namespace primacron, timeout 60 * 15 seconds, address localhost and no
port. -/
def defaultConfig : Config :=
  ⟨"/primacron/broadcast", "/stream/", none, "primacron", 60 * 15, "localhost", none⟩

/-- The uri getter.  The source joins the truthy entries of
the pair (networkaddress, port) with a colon; the constructor
guarantees the address is a non-empty string and the port either null
or a truthy number, so the getter reduces to the two cases below. -/
def Config.uri (c : Config) : String :=
  match c.port with
  | none => "http://" ++ c.networkaddress
  | some p => "http://" ++ c.networkaddress ++ ":" ++ toString p

/-! ## The Redis-backed session directory -/

/-- Association-list update used for SETEX: replace the binding of a
key or append a fresh one.  The stored entry is the pair of value and
TTL in seconds. -/
def kvSet : List (String × String × Nat) → String → String → Nat → List (String × String × Nat)
  | [], k, v, ttl => [(k, v, ttl)]
  | (k2, e) :: rest, k, v, ttl =>
    if k2 == k then (k, v, ttl) :: rest else (k2, e) :: kvSet rest k v ttl

/-- Association-list lookup (GET together with TTL). -/
def kvLookup : List (String × String × Nat) → String → Option (String × Nat)
  | [], _ => none
  | (k2, e) :: rest, k => if k2 == k then some e else kvLookup rest k

/-- Association-list removal (DEL). -/
def kvDel : List (String × String × Nat) → String → List (String × String × Nat)
  | [], _ => []
  | (k2, e) :: rest, k => if k2 == k then kvDel rest k else (k2, e) :: kvDel rest k

/-- Set lookup for SMEMBERS; an absent set reads as the empty list. -/
def setLookup : List (String × List String) → String → List String
  | [], _ => []
  | (k2, m) :: rest, k => if k2 == k then m else setLookup rest k

/-- SADD on a member list: add the member unless already present. -/
def saddMembers (members : List String) (v : String) : List String :=
  if members.contains v then members else members ++ [v]

/-- Set update for SADD. -/
def setAdd : List (String × List String) → String → String → List (String × List String)
  | [], k, v => [(k, [v])]
  | (k2, m) :: rest, k, v =>
    if k2 == k then (k, saddMembers m v) :: rest else (k2, m) :: setAdd rest k v

/-- The shared directory: string keys with value and TTL, plus the
tailgator sets.  TTL expiry over wall-clock time is not simulated; the
TTL is recorded so that the written expiry can be inspected. -/
structure Store where
  kv : List (String × String × Nat)
  sets : List (String × List String)

/-- SETEX key ttl value. -/
def Store.setex (st : Store) (k : String) (ttl : Nat) (v : String) : Store :=
  ⟨kvSet st.kv k v ttl, st.sets⟩

/-- GET key, value only. -/
def Store.get (st : Store) (k : String) : Option String :=
  (kvLookup st.kv k).map (fun e => e.1)

/-- The full entry for a key, value together with its TTL. -/
def Store.getEntry (st : Store) (k : String) : Option (String × Nat) :=
  kvLookup st.kv k

/-- DEL key. -/
def Store.del (st : Store) (k : String) : Store :=
  ⟨kvDel st.kv k, st.sets⟩

/-- SMEMBERS key. -/
def Store.smembers (st : Store) (k : String) : List String :=
  setLookup st.sets k

/-- SADD key member. -/
def Store.sadd (st : Store) (k : String) (v : String) : Store :=
  ⟨st.kv, setAdd st.sets k v⟩

/-- The session key of an account and session pair. -/
def sessionKey (cfg : Config) (account session : String) : String :=
  cfg.nspace ++ "::" ++ account ++ "::" ++ session

/-! ## Register / Unregister / Lookup
(Primacron.prototype.connect, disconnect and find) -/

/-- Result of connect: the updated store, the error handed to the
callback (the source scans the MULTI replies and fabricates an error
when a reply array contains the literal string ERR, working around a
node-redis parsing bug), and the SMEMBERS reply which is always passed
to the callback as its data argument. -/
structure ConnectResult where
  store : Store
  err : Option String
  members : List String

/-- Primacron.prototype.connect: inside one atomic MULTI, SETEX the
session key to uri@id with the configured timeout and SMEMBERS the
pipe set of the same key; the callback receives the members reply. -/
def connect (cfg : Config) (st : Store) (account session id : String) : ConnectResult :=
  let key := sessionKey cfg account session
  let value := cfg.uri ++ "@" ++ id
  let st2 := st.setex key cfg.timeout value
  let members := st2.smembers (key ++ "::pipe")
  let err := if members.contains "ERR" then some "ERR" else none
  ⟨st2, err, members⟩

/-- Primacron.prototype.disconnect: DEL the session key.  The
connection id is only used for diagnostic context in the source and
does not influence the deletion. -/
def disconnect (cfg : Config) (st : Store) (account session _id : String) : Store :=
  st.del (sessionKey cfg account session)

/-- JavaScript String.prototype.split on a single separator
character, on the character list of the string. -/
def splitOnChar (sep : Char) : List Char → List (List Char)
  | [] => [[]]
  | c :: rest =>
    match splitOnChar sep rest with
    | [] => [[]]
    | g :: gs => if c = sep then [] :: g :: gs else (c :: g) :: gs

/-- The value parse performed by find: data.split and then the
components data[0] and data[1].  The second component is undefined
(none) when the stored value contains no separator. -/
def parseAddress (w : String) : String × Option String :=
  match splitOnChar '@' w.toList with
  | [] => ("", none)
  | g :: gs => (String.mk g, gs.head?.map String.mk)

/-- Outcome of a find call as observed by its callback. -/
inductive FindResult where
  | absent
  | found (server : String) (id : Option String)
deriving DecidableEq

/-- Primacron.prototype.find: GET the session key; a missing or empty
value is handed back unparsed (absent), otherwise the value is split
on the separator and the first two components are returned. -/
def find (cfg : Config) (st : Store) (account session : String) : FindResult :=
  match st.get (sessionKey cfg account session) with
  | none => .absent
  | some w =>
    if w == "" then .absent
    else
      let p := parseAddress w
      .found p.1 p.2

/-! ## Peer broadcast (Primacron.prototype.communicate) -/

/-- The one HTTP request issued by communicate: PUT to the peer
broadcast path with the JSON body holding id and message. -/
structure HttpRequest where
  uri : String
  method : String
  bodyId : String
  bodyMessage : JSVal

/-- What the communicate callback reports to its caller. -/
inductive CommResult where
  | delivered (body : JSVal)
  | failed (status : Option Nat) (body : JSVal)

/-- The response classification inside communicate: any transport
error or any status other than 200 is a failure carrying the observed
status (none when no response arrived) and the body; a plain 200 hands
the body back as success. -/
def communicateCallback (err : Option String) (response : Option Nat) (body : JSVal) : CommResult :=
  if err.isSome || response ≠ some 200 then .failed response body else .delivered body

/-- A communicate call: the single request it issues and the
classification applied to whatever comes back. -/
structure CommCall where
  requests : List HttpRequest
  handle : Option String → Option Nat → JSVal → CommResult

/-- Primacron.prototype.communicate: one PUT request to
server + broadcast path, classified by communicateCallback.  No retry
is modelled because the source performs none. -/
def communicate (cfg : Config) (server id : String) (message : JSVal) : CommCall :=
  ⟨[⟨server ++ cfg.broadcast, "PUT", id, message⟩], communicateCallback⟩

/-! ## Pipe (Primacron.prototype.pipe) -/

/-- Primacron.prototype.pipe up to its directory effects: the
account guard runs first and returns the error without touching the
store; otherwise SADD the follower address to the pipe set of the
followed session (the subsequent forward call is HTTP traffic modelled
by communicate and does not write the directory).  The second
component is the error the callback is invoked with. -/
def pipe (cfg : Config) (st : Store) (socketAccount socketId account session : String) :
    Store × Option String :=
  if account ≠ socketAccount then (st, some "Cannot follow other accounts")
  else
    let key := sessionKey cfg account session ++ "::pipe"
    let value := cfg.uri ++ "@" ++ socketId
    (st.sadd key value, none)

/-! ## Inbound broadcast handler (Primacron.prototype.incoming) -/

/-- Effects visible from the incoming handler besides the HTTP
response: an error emission on the node instance carrying the raw
buffer, or an event emitted on the targeted local socket. -/
inductive Emission where
  | errorInvalid (raw : String)
  | sparkEmit (event : String) (payload : JSVal)

/-- Outcome of one incoming PUT: a response document with the emitted
effects, or an uncaught runtime exception. -/
inductive Outcome where
  | responded (doc : EndDoc) (effects : List Emission)
  | threw (msg : String)

/-- Result of running the configured decoder on the request body. -/
inductive DecodeResult where
  | failure
  | success (v : JSVal)

/-- The dispatch switch of incoming, keyed on the class tag of the
message value: strings go to the internal pipe event, arrays to the
internal tail event, everything else to the generic event. -/
def dispatchEmission (message : JSVal) : Emission :=
  match jsClass message with
  | "String" => .sparkEmit "primacron::pipe" message
  | "Array" => .sparkEmit "primacron::tail" message
  | _ => .sparkEmit "primacron" message

/-- Primacron.prototype.incoming after the body has been buffered and
decoded.  The guards run in source order: decode failure answers
broken and emits the raw buffer on the error channel; a value whose
typeof is not object, or which is an array, answers invalid with the
same emission; next the source evaluates the in operator on the value,
which on null (typeof object, not an array) throws a TypeError; a
well-keyed object whose id is not an attached connection answers
unknown socket with no emission; otherwise the message is dispatched
to the socket and the response is sending. -/
def incoming (connections : List String) (buff : String) : DecodeResult → Outcome
  | .failure => .responded (endDoc "broken") [.errorInvalid buff]
  | .success v =>
    if typeofStr v != "object" || isArray v then
      .responded (endDoc "invalid") [.errorInvalid buff]
    else
      match v with
      | .obj fields =>
        if !(hasKey "message" fields && hasKey "id" fields) then
          .responded (endDoc "invalid") [.errorInvalid buff]
        else if connections.contains (jsPropKey (getKey "id" fields)) then
          .responded (endDoc "sending") [dispatchEmission (getKey "message" fields)]
        else
          .responded (endDoc "unknown socket") []
      | _ => .threw "TypeError: cannot use in operator on a non-object"

/-! ## Per-connection listeners installed by
Primacron.prototype.connection -/

/-- The tail listener body for one member: push the member on the
connection tail list unless indexOf already finds a strictly equal
element. -/
def tailAdd (tail : List JSVal) (member : JSVal) : List JSVal :=
  if tail.any (fun t => jsStrictEq t member) then tail else tail ++ [member]

/-- The tail listener: fold tailAdd over the received member list. -/
def tailListener (tail : List JSVal) (members : List JSVal) : List JSVal :=
  members.foldl tailAdd tail

/-- The spark listeners for the internal events: the pipe listener
writes the payload to the client unchanged; the tail listener extends
the tail list; other events reach application listeners only.  The
result is the pair of client writes and the new tail list.  The
non-array tail branch is unreachable from incoming, which dispatches
the tail event only for array messages. -/
def sparkHandle (tail : List JSVal) (event : String) (payload : JSVal) :
    List JSVal × List JSVal :=
  if event == "primacron::pipe" then ([payload], tail)
  else if event == "primacron::tail" then
    match payload with
    | .arr members => ([], tailListener tail members)
    | _ => ([], tail)
  else ([], tail)

/-! ## Validation pipeline (Primacron.prototype.validate and the
preparser of Primacron.prototype.connection) -/

/-- Typed rendering of the dotted event-bus channel names. -/
inductive Channel where
  | validate (event : String)
  | stream (event : String)
  | errorValidation
  | errorInvalid

/-- One entry of the argument array handed to a validator: a supplied
data value, an array hole (read as undefined), or the completion
continuation the pipeline spliced in. -/
inductive Slot where
  | val (v : JSVal)
  | unset
  | cont

/-- The value a slot presents to an emission (holes read as
undefined; the continuation slot never survives into an emission). -/
def slotVal : Slot → JSVal
  | .val v => v
  | .unset => .undefined
  | .cont => .undefined

/-- The slot found at a data position: the supplied argument when one
exists, an array hole otherwise. -/
def slotOf (ds : List JSVal) (i : Nat) : Slot :=
  match ds[i]? with
  | some v => .val v
  | none => .unset

/-- The assignment data at position ca gets the callback: overwrite when
the index exists, otherwise extend the array with holes up to the
index. -/
def placeCallback (ca : Nat) (ds : List JSVal) : List Slot :=
  if ca < ds.length then (ds.map Slot.val).set ca Slot.cont
  else ds.map Slot.val ++ List.replicate (ca - ds.length) Slot.unset ++ [Slot.cont]

/-- One invocation of the completion continuation by the validator:
the err and ok arguments (the optional transformed argument is unused
by the source). -/
structure ContCall where
  err : JSVal
  ok : JSVal

/-- One observable step of the pipeline: the validator invoking its
continuation, an event-bus emission, or an uncaught exception. -/
inductive TraceEv where
  | contCalled (err ok : JSVal)
  | emit (ch : Channel) (args : List JSVal)
  | threw (msg : String)

/-- The error context object of a validation failure. -/
def validationCtx (event : String) (raw user : JSVal) : JSVal :=
  .obj [("event", .str event), ("raw", raw), ("user", user)]

/-- The body of the continuation the pipeline hands the validator.
A truthy err or a strict ok === false emits the validation error with
the event, raw and user context and leaves the argument array alone;
otherwise the array is sliced below the continuation position, the
stream channel name is unshifted and raw and user are pushed, the
result is emitted, and the mutated array persists. -/
def callbackStep (event : String) (ca : Nat) (raw user : JSVal) (st : List Slot)
    (c : ContCall) : List Slot × List TraceEv :=
  if truthy c.err || isFalseVal c.ok then
    (st,
      [.emit .errorValidation
        [if truthy c.err then c.err else .errorObj "Failed to validate the data",
         validationCtx event raw user]])
  else
    let sliced := st.take ca
    (Slot.val (.str ("stream::" ++ event)) :: sliced ++ [Slot.val raw, Slot.val user],
      [.emit (.stream event) (sliced.map slotVal ++ [raw, user])])

/-- The validator body as the model sees it: a sequence of
continuation invocations, each running the callback synchronously on
the current argument array. -/
def runCalls (event : String) (ca : Nat) (raw user : JSVal) (st : List Slot) :
    List ContCall → List TraceEv
  | [] => []
  | c :: rest =>
    let r := callbackStep event ca raw user st c
    .contCalled c.err c.ok :: (r.2 ++ runCalls event ca raw user r.1 rest)

/-- JavaScript Array.prototype.pop: the last element (undefined on an
empty array) together with the shortened array. -/
def popLast (l : List JSVal) : JSVal × List JSVal :=
  match l.getLast? with
  | none => (.undefined, l)
  | some v => (v, l.dropLast)

/-- The listener validate registers on the validate channel: pop raw
and then user off the argument tail, splice the continuation into
position arity - 1 and hand the array to the validator, whose
continuation invocations are given by calls. -/
def validateListener (event : String) (arity : Nat) (calls : List ContCall)
    (args : List JSVal) : List TraceEv :=
  let p1 := popLast args
  let p2 := popLast p1.2
  runCalls event (arity - 1) p1.1 p2.1 (placeCallback (arity - 1) p2.2) calls

/-- The validator registry: an event name maps to the registered
arity and the continuation invocations its validator performs. -/
def Validators := String → Option (Nat × List ContCall)

/-- Does the decoded client message take the event shape?  The source
additionally requires the value to be truthy before applying the in
operator, so null never reaches it here. -/
def isEventShaped : JSVal → Bool
  | .obj fields => hasKey "event" fields
  | _ => false

/-- An emission on a validate channel followed synchronously by the
registered validate listener when one exists; without a listener the
emit call returns false and the preparser reports a missing validator
with the given context object. -/
def emitValidate (validators : Validators) (event : String) (missingCtx : JSVal)
    (chanArgs : List JSVal) : List TraceEv :=
  .emit (.validate event) chanArgs ::
    (match validators event with
    | some (n, calls) => validateListener event n calls chanArgs
    | none => [.emit .errorValidation [.errorObj "Validator missing", missingCtx]])

/-- The data listener of Primacron.prototype.connection (the
preparser), followed synchronously by the matching validate listener
when one is registered.  A non-object message emits the invalid error
and stops.  An event-shaped message unshifts the validate channel onto
its args array (a TypeError when args is not an array) and pushes user
and raw; a missing validator becomes a validation error with the event
name.  Any other message goes out on the message validate channel,
again with a validation error when no validator listens (the source
reports the event name data there). -/
def preparser (validators : Validators) (user dataMsg raw : JSVal) : List TraceEv :=
  if typeofStr dataMsg != "object" then
    [.emit .errorInvalid [.errorObj "Not an object", .obj [("user", user), ("raw", raw)]]]
  else if truthy dataMsg && isEventShaped dataMsg then
    match dataMsg with
    | .obj fields =>
      match getKey "args" fields with
      | .arr l =>
        emitValidate validators (jsPropKey (getKey "event" fields))
          (.obj [("event", getKey "event" fields), ("user", user), ("raw", raw)])
          (l ++ [user, raw])
      | _ => [.threw "TypeError: unshift is not a function"]
    | _ => [.threw "unreachable"]
  else
    emitValidate validators "message"
      (.obj [("event", .str "data"), ("user", user), ("raw", raw)])
      [dataMsg, user, raw]

/-! ## Trace observations -/

/-- Is a trace event an emission on a stream channel? -/
def isStreamEmit : TraceEv → Bool
  | .emit (.stream _) _ => true
  | _ => false

/-- Is a trace event a continuation invocation the callback treats as
successful (falsy err and ok not strictly false)? -/
def isSuccessCall : TraceEv → Bool
  | .contCalled e k => !truthy e && !isFalseVal k
  | _ => false

/-- Is a trace event a continuation invocation with an err that is
loosely equal to null and an ok not strictly false?  This is the
success notion the specification text uses. -/
def isNullishSuccessCall : TraceEv → Bool
  | .contCalled e k => isNullish e && !isFalseVal k
  | _ => false

/-- Number of stream emissions in a trace. -/
def countStream (tr : List TraceEv) : Nat :=
  (tr.filter isStreamEmit).length

/-- Number of successful continuation invocations in a trace. -/
def countSuccess (tr : List TraceEv) : Nat :=
  (tr.filter isSuccessCall).length

/-- Number of continuation invocations with a nullish err and ok not
strictly false in a trace. -/
def countNullishSuccess (tr : List TraceEv) : Nat :=
  (tr.filter isNullishSuccessCall).length

/-- Scan of a trace against its immediate predecessor: every stream
emission must directly follow a successful continuation invocation. -/
def adjFrom : TraceEv → List TraceEv → Bool
  | _, [] => true
  | prev, x :: rest => (!isStreamEmit x || isSuccessCall prev) && adjFrom x rest

/-- A trace in which no stream emission appears first and every
stream emission directly follows a successful continuation
invocation. -/
def adjOK : List TraceEv → Bool
  | [] => true
  | x :: rest => !isStreamEmit x && adjFrom x rest

/-! ## Store lemmas -/

theorem kvSet_lookup (kv : List (String × String × Nat)) (k v : String) (ttl : Nat) :
    kvLookup (kvSet kv k v ttl) k = some (v, ttl) := by
  induction kv with
  | nil => simp [kvSet, kvLookup]
  | cons h2 t ih =>
    obtain ⟨k2, e⟩ := h2
    by_cases hk : k2 = k
    · simp [kvSet, kvLookup, hk]
    · simp [kvSet, kvLookup, hk, ih]

theorem kvDel_lookup (kv : List (String × String × Nat)) (k : String) :
    kvLookup (kvDel kv k) k = none := by
  induction kv with
  | nil => rfl
  | cons h2 t ih =>
    obtain ⟨k2, e⟩ := h2
    by_cases hk : k2 = k
    · simp [kvDel, hk, ih]
    · simp [kvDel, kvLookup, hk, ih]

/-! ## Split lemmas -/

theorem splitOnChar_cons (sep c : Char) (rest : List Char) :
    splitOnChar sep (c :: rest)
      = match splitOnChar sep rest with
        | [] => [[]]
        | g :: gs => if c = sep then [] :: g :: gs else (c :: g) :: gs := rfl

theorem splitOnChar_ne_nil (sep : Char) (l : List Char) : splitOnChar sep l ≠ [] := by
  cases l with
  | nil => simp [splitOnChar]
  | cons c rest =>
    rw [splitOnChar_cons]
    cases h : splitOnChar sep rest with
    | nil => simp
    | cons g gs => by_cases hc : c = sep <;> simp [hc]

theorem splitOnChar_no_sep (sep : Char) (v : List Char) (h : sep ∉ v) :
    splitOnChar sep v = [v] := by
  induction v with
  | nil => rfl
  | cons c rest ih =>
    have hc : ¬ c = sep := by
      intro he
      exact h (he ▸ List.mem_cons_self c rest)
    have hr : sep ∉ rest := fun hm => h (List.mem_cons_of_mem _ hm)
    rw [splitOnChar_cons, ih hr]
    simp [hc]

theorem splitOnChar_sep_append (sep : Char) (u v : List Char) (h : sep ∉ u) :
    splitOnChar sep (u ++ sep :: v) = u :: splitOnChar sep v := by
  induction u with
  | nil =>
    simp only [List.nil_append]
    rw [splitOnChar_cons]
    cases hv : splitOnChar sep v with
    | nil => exact absurd hv (splitOnChar_ne_nil sep v)
    | cons g gs => simp
  | cons c rest ih =>
    have hc : ¬ c = sep := by
      intro he
      exact h (he ▸ List.mem_cons_self c rest)
    have hr : sep ∉ rest := fun hm => h (List.mem_cons_of_mem _ hm)
    simp only [List.cons_append]
    rw [splitOnChar_cons, ih hr]
    simp [hc]

theorem splitOnChar_head (sep : Char) (l : List Char) :
    ∃ gs, splitOnChar sep l = l.takeWhile (fun c => !(c == sep)) :: gs := by
  induction l with
  | nil => exact ⟨[], rfl⟩
  | cons c rest ih =>
    obtain ⟨gs, hgs⟩ := ih
    by_cases hc : c = sep
    · refine ⟨rest.takeWhile (fun x => !(x == sep)) :: gs, ?_⟩
      rw [splitOnChar_cons, hgs]
      simp [List.takeWhile_cons, hc]
    · refine ⟨gs, ?_⟩
      rw [splitOnChar_cons, hgs]
      simp [List.takeWhile_cons, hc]

theorem string_toList_append_sep (u rest : String) :
    (u ++ "@" ++ rest).toList = u.toList ++ '@' :: rest.toList := by
  have h1 : ("@" : String).toList = ['@'] := rfl
  simp [String.toList, List.append_assoc]

theorem parseAddress_eq (u rest : String) (hu : '@' ∉ u.toList) :
    parseAddress (u ++ "@" ++ rest)
      = (u, some (String.mk (rest.toList.takeWhile (fun c => !(c == '@'))))) := by
  unfold parseAddress
  rw [string_toList_append_sep, splitOnChar_sep_append _ _ _ hu]
  obtain ⟨gs, hgs⟩ := splitOnChar_head '@' rest.toList
  rw [hgs]
  rfl

theorem parseAddress_clean (u c2 : String) (hu : '@' ∉ u.toList) (hc : '@' ∉ c2.toList) :
    parseAddress (u ++ "@" ++ c2) = (u, some c2) := by
  unfold parseAddress
  rw [string_toList_append_sep, splitOnChar_sep_append _ _ _ hu,
    splitOnChar_no_sep _ _ hc]
  rfl

theorem append_sep_ne_empty (u rest : String) : u ++ "@" ++ rest ≠ "" := by
  intro h
  have hl := congrArg String.length h
  rw [String.length_append, String.length_append] at hl
  have h1 : ("@" : String).length = 1 := rfl
  rw [h1] at hl
  simp at hl

/-! ## Directory claims -/

/-- Claim C5: on every Register call the session key
namespace::account::session is written with the value nodeURL@id and a
TTL equal to the configured timeout (whose constructor default is 900
seconds), the node URL is http:// plus the network address with the
port appended after a colon exactly when a port is set, the pipe set
of the same key is read inside the same atomic MULTI, and its member
list is what the callback receives. -/
theorem connect_registers_session (cfg : Config) (st : Store) (a s c : String) (p : Nat) :
    (connect cfg st a s c).store.getEntry (sessionKey cfg a s)
        = some (cfg.uri ++ "@" ++ c, cfg.timeout)
    ∧ (connect cfg st a s c).members = st.smembers (sessionKey cfg a s ++ "::pipe")
    ∧ Config.uri ⟨cfg.broadcast, cfg.endpoint, cfg.redirect, cfg.nspace, cfg.timeout,
        cfg.networkaddress, none⟩ = "http://" ++ cfg.networkaddress
    ∧ Config.uri ⟨cfg.broadcast, cfg.endpoint, cfg.redirect, cfg.nspace, cfg.timeout,
        cfg.networkaddress, some p⟩
        = "http://" ++ cfg.networkaddress ++ ":" ++ toString p
    ∧ defaultConfig.timeout = 900 := by
  refine ⟨?_, ?_, rfl, rfl, rfl⟩
  · simp [connect, Store.getEntry, Store.setex, kvSet_lookup]
  · simp [connect, Store.smembers, Store.setex]

/-- Claim C6 counterexample: with the default configuration and a
connection id that itself contains an at sign, Register followed by
Lookup parses back only the segment of the id before its first at
sign, not the whole id. -/
theorem register_lookup_at_sign_cex :
    find defaultConfig (connect defaultConfig ⟨[], []⟩ "acct" "sess" "x@y").store
        "acct" "sess" = .found "http://localhost" (some "x")
    ∧ find defaultConfig (connect defaultConfig ⟨[], []⟩ "acct" "sess" "x@y").store
        "acct" "sess" ≠ .found defaultConfig.uri (some "x@y") := by
  constructor
  · rfl
  · decide

/-- Claim C6 (amended: the round trip holds whenever the node URL and
the connection id contain no at sign, the separator find splits on):
on one node against an error-free directory, Register(a,s,c) followed
by Lookup(a,s) returns the node URL paired with c, and after
Unregister(a,s,c) the Lookup reports absent. -/
theorem register_lookup_roundtrip (cfg : Config) (st : Store) (a s c : String)
    (hu : '@' ∉ (cfg.uri).toList) (hc : '@' ∉ c.toList) :
    find cfg (connect cfg st a s c).store a s = .found cfg.uri (some c)
    ∧ find cfg (disconnect cfg (connect cfg st a s c).store a s c) a s = .absent := by
  constructor
  · have hget : (connect cfg st a s c).store.get (sessionKey cfg a s)
        = some (cfg.uri ++ "@" ++ c) := by
      simp [connect, Store.get, Store.setex, kvSet_lookup]
    simp [find, hget, append_sep_ne_empty cfg.uri c, parseAddress_clean _ _ hu hc]
  · simp [find, disconnect, Store.del, Store.get, kvDel_lookup]

/-- Claim C6 witness: the round trip evaluated at the default
configuration, an empty store and a concrete id. -/
theorem register_lookup_roundtrip_witness :
    ('@' ∉ (defaultConfig.uri).toList) ∧ ('@' ∉ ("cid7" : String).toList)
    ∧ (find defaultConfig (connect defaultConfig ⟨[], []⟩ "a1" "s1" "cid7").store
          "a1" "s1" = .found defaultConfig.uri (some "cid7")
        ∧ find defaultConfig
            (disconnect defaultConfig
              (connect defaultConfig ⟨[], []⟩ "a1" "s1" "cid7").store "a1" "s1" "cid7")
            "a1" "s1" = .absent) :=
  ⟨by decide, by decide,
    register_lookup_roundtrip defaultConfig ⟨[], []⟩ "a1" "s1" "cid7"
      (by decide) (by decide)⟩

/-- Claim C9 counterexample: Lookup on a stored value whose id part
contains a second at sign returns only the segment between the first
and second at signs, not the entire remainder after the first one. -/
theorem find_split_at_sign_cex :
    find defaultConfig ⟨[("primacron::a::s", "http://node@px@qy", 900)], []⟩ "a" "s"
        = .found "http://node" (some "px")
    ∧ find defaultConfig ⟨[("primacron::a::s", "http://node@px@qy", 900)], []⟩ "a" "s"
        ≠ .found "http://node" (some "px@qy") := by
  constructor
  · rfl
  · decide

/-- Claim C9 (amended: the part of the stored value before the first
at sign is returned as the node URL, and the connection id returned is
the segment between the first and the second at sign, which is the
entire remainder only when the remainder contains no further at
sign): the parse performed by Lookup. -/
theorem find_split_first_segment (cfg : Config) (st : Store) (a s u rest : String)
    (hget : st.get (sessionKey cfg a s) = some (u ++ "@" ++ rest))
    (hu : '@' ∉ u.toList) :
    find cfg st a s
      = .found u (some (String.mk (rest.toList.takeWhile (fun c => !(c == '@'))))) := by
  simp [find, hget, append_sep_ne_empty u rest, parseAddress_eq _ _ hu]

/-- Claim C9 witness: the parse evaluated on a concrete stored value
with two at signs. -/
theorem find_split_first_segment_witness :
    ((Store.get ⟨[("primacron::a::s", "http://node@px@qy", 900)], []⟩ "primacron::a::s")
        = some ("http://node" ++ "@" ++ "px@qy"))
    ∧ ('@' ∉ ("http://node" : String).toList)
    ∧ find defaultConfig ⟨[("primacron::a::s", "http://node@px@qy", 900)], []⟩ "a" "s"
        = .found "http://node" (some "px") :=
  ⟨by decide, by decide,
    (find_split_first_segment defaultConfig
        ⟨[("primacron::a::s", "http://node@px@qy", 900)], []⟩
        "a" "s" "http://node" "px@qy" (by decide) (by decide)).trans (by decide)⟩

/-- Claim C10: when the requested account differs from the account in
the socket query state, pipe hands its callback the error
Cannot follow other accounts before any store call, so the tailgator
set and the session entry are untouched. -/
theorem pipe_account_guard (cfg : Config) (st : Store) (sa si a s : String)
    (h : a ≠ sa) :
    pipe cfg st sa si a s = (st, some "Cannot follow other accounts")
    ∧ (pipe cfg st sa si a s).1.smembers (sessionKey cfg a s ++ "::pipe")
        = st.smembers (sessionKey cfg a s ++ "::pipe")
    ∧ (pipe cfg st sa si a s).1.getEntry (sessionKey cfg a s)
        = st.getEntry (sessionKey cfg a s) := by
  have hp : pipe cfg st sa si a s = (st, some "Cannot follow other accounts") := by
    simp [pipe, h]
  exact ⟨hp, by rw [hp], by rw [hp]⟩

/-- Claim C10 witness: the guard evaluated at concrete mismatching
accounts. -/
theorem pipe_account_guard_witness :
    (("bob" : String) ≠ "alice")
    ∧ pipe defaultConfig ⟨[], []⟩ "alice" "id1" "bob" "s1"
        = (⟨[], []⟩, some "Cannot follow other accounts") :=
  ⟨by decide, (pipe_account_guard defaultConfig ⟨[], []⟩ "alice" "id1" "bob" "s1"
      (by decide)).1⟩

/-- Claim C7: communicate issues exactly one PUT request to the peer
broadcast path; its callback reports success with the body exactly on
a 200 response, reports a failure carrying the observed status and
body on any other status, and reports a failure with no status when
the transport produced no response. -/
theorem communicate_classification (cfg : Config) (server id2 : String)
    (m body : JSVal) (e : String) (s2 : Nat) (hs : s2 ≠ 200) :
    (communicate cfg server id2 m).requests
        = [⟨server ++ cfg.broadcast, "PUT", id2, m⟩]
    ∧ (communicate cfg server id2 m).handle none (some 200) body = .delivered body
    ∧ (communicate cfg server id2 m).handle none (some s2) body
        = .failed (some s2) body
    ∧ (communicate cfg server id2 m).handle (some e) none body = .failed none body := by
  refine ⟨rfl, ?_, ?_, ?_⟩ <;> simp [communicate, communicateCallback, hs]

/-- Claim C7 witness: the classification evaluated at a 404 status
and a concrete transport error. -/
theorem communicate_classification_witness :
    ((404 : Nat) ≠ 200)
    ∧ ((communicate defaultConfig "http://peer" "X" (.str "hi")).requests
          = [⟨"http://peer" ++ defaultConfig.broadcast, "PUT", "X", .str "hi"⟩]
        ∧ (communicate defaultConfig "http://peer" "X" (.str "hi")).handle
            none (some 200) (.str "ok") = .delivered (.str "ok")
        ∧ (communicate defaultConfig "http://peer" "X" (.str "hi")).handle
            none (some 404) (.str "ok") = .failed (some 404) (.str "ok")
        ∧ (communicate defaultConfig "http://peer" "X" (.str "hi")).handle
            (some "ECONNREFUSED") none (.str "ok") = .failed none (.str "ok")) :=
  ⟨by decide,
    communicate_classification defaultConfig "http://peer" "X" (.str "hi") (.str "ok")
      "ECONNREFUSED" 404 (by decide)⟩

/-! ## Inbound broadcast claims -/

/-- Claim C2, failing input: a PUT body that decodes to the JSON
value null passes the typeof object test (typeof null is object) and
is not an array, so the source reaches the in operator on null and
throws an uncaught TypeError instead of answering 400 invalid with an
error emission as the specification requires. -/
theorem incoming_null_body_throws :
    incoming [] "null" (.success .null)
        = .threw "TypeError: cannot use in operator on a non-object"
    ∧ incoming [] "null" (.success .null)
        ≠ .responded (endDoc "invalid") [.errorInvalid "null"] := by
  constructor
  · rfl
  · simp [incoming, typeofStr, isArray]

/-- Claim C8: for a well-formed envelope whose id is attached, the
response is the 200 sending document and the message is dispatched by
its runtime type: strings to the internal pipe event (whose listener
writes the payload to the client unchanged), arrays to the internal
tail event (whose listener appends each member exactly when no
strictly equal member is already in the tail list), and anything else
to the generic event. -/
theorem incoming_dispatch_by_type (conns : List String) (buff : String)
    (fields : List (String × JSVal)) (tail : List JSVal) (v member : JSVal)
    (members : List JSVal)
    (hm : hasKey "message" fields = true) (hi : hasKey "id" fields = true)
    (hc : conns.contains (jsPropKey (getKey "id" fields)) = true) :
    incoming conns buff (.success (.obj fields))
        = .responded (endDoc "sending") [dispatchEmission (getKey "message" fields)]
    ∧ (endDoc "sending").status = 200
    ∧ (∀ m, dispatchEmission m
        = .sparkEmit
            (if jsClass m = "String" then "primacron::pipe"
             else if jsClass m = "Array" then "primacron::tail"
             else "primacron") m)
    ∧ sparkHandle tail "primacron::pipe" v = ([v], tail)
    ∧ sparkHandle tail "primacron::tail" (.arr members) = ([], tailListener tail members)
    ∧ (tail.any (fun t => jsStrictEq t member) = true → tailAdd tail member = tail)
    ∧ (tail.any (fun t => jsStrictEq t member) = false
        → tailAdd tail member = tail ++ [member]) := by
  refine ⟨?_, rfl, ?_, ?_, ?_, ?_, ?_⟩
  · have hmem : jsPropKey (getKey "id" fields) ∈ conns := by simpa using hc
    simp [incoming, typeofStr, isArray, hm, hi, hmem]
  · intro m
    cases m <;> simp [dispatchEmission, jsClass]
  · simp [sparkHandle]
  · simp [sparkHandle]
  · intro hmem
    simp [tailAdd, hmem]
  · intro hmem
    simp [tailAdd, hmem]

/-- Claim C8 witness: the dispatch evaluated on a concrete attached
connection and string message, together with the tail listener on a
concrete member list. -/
theorem incoming_dispatch_by_type_witness :
    hasKey "message" [("id", JSVal.str "X"), ("message", JSVal.str "hi")] = true
    ∧ hasKey "id" [("id", JSVal.str "X"), ("message", JSVal.str "hi")] = true
    ∧ (["X"].contains
        (jsPropKey (getKey "id" [("id", JSVal.str "X"), ("message", JSVal.str "hi")]))
        = true)
    ∧ (incoming ["X"] "body"
          (.success (.obj [("id", JSVal.str "X"), ("message", JSVal.str "hi")]))
        = .responded (endDoc "sending")
            [dispatchEmission
              (getKey "message" [("id", JSVal.str "X"), ("message", JSVal.str "hi")])]
      ∧ (endDoc "sending").status = 200
      ∧ (∀ m, dispatchEmission m
          = .sparkEmit
              (if jsClass m = "String" then "primacron::pipe"
               else if jsClass m = "Array" then "primacron::tail"
               else "primacron") m)
      ∧ sparkHandle [JSVal.str "t"] "primacron::pipe" (JSVal.str "w")
          = ([JSVal.str "w"], [JSVal.str "t"])
      ∧ sparkHandle [JSVal.str "t"] "primacron::tail"
            (.arr [JSVal.str "t", JSVal.str "m2"])
          = ([], tailListener [JSVal.str "t"] [JSVal.str "t", JSVal.str "m2"])
      ∧ (([JSVal.str "t"] : List JSVal).any (fun t => jsStrictEq t (JSVal.str "t")) = true
          → tailAdd [JSVal.str "t"] (JSVal.str "t") = [JSVal.str "t"])
      ∧ (([JSVal.str "t"] : List JSVal).any (fun t => jsStrictEq t (JSVal.str "t")) = false
          → tailAdd [JSVal.str "t"] (JSVal.str "t")
              = [JSVal.str "t"] ++ [JSVal.str "t"])) :=
  ⟨rfl, rfl, rfl,
    incoming_dispatch_by_type ["X"] "body"
      [("id", JSVal.str "X"), ("message", JSVal.str "hi")]
      [JSVal.str "t"] (JSVal.str "w") (JSVal.str "t")
      [JSVal.str "t", JSVal.str "m2"] rfl rfl rfl⟩

/-! ## Validation pipeline lemmas -/

theorem popLast_concat (l : List JSVal) (a : JSVal) : popLast (l ++ [a]) = (a, l) := by
  simp [popLast, List.getLast?_concat, List.dropLast_concat]

theorem adjFrom_runCalls (event : String) (ca : Nat) (raw user : JSVal) :
    ∀ (calls : List ContCall) (st : List Slot) (p : TraceEv),
      adjFrom p (runCalls event ca raw user st calls) = true := by
  intro calls
  induction calls with
  | nil => intro st p; rfl
  | cons c rest ih =>
    intro st p
    by_cases h : (truthy c.err || isFalseVal c.ok) = true
    · simp [runCalls, callbackStep, h, adjFrom, isStreamEmit, ih]
    · simp only [Bool.or_eq_true, not_or, Bool.not_eq_true] at h
      simp [runCalls, callbackStep, h.1, h.2, adjFrom, isStreamEmit, isSuccessCall, ih]

theorem countStream_cons (x : TraceEv) (l : List TraceEv) :
    countStream (x :: l) = (if isStreamEmit x then 1 else 0) + countStream l := by
  unfold countStream
  rw [List.filter_cons]
  by_cases hx : isStreamEmit x
  · simp [hx, Nat.add_comm]
  · simp [hx]

theorem countSuccess_cons (x : TraceEv) (l : List TraceEv) :
    countSuccess (x :: l) = (if isSuccessCall x then 1 else 0) + countSuccess l := by
  unfold countSuccess
  rw [List.filter_cons]
  by_cases hx : isSuccessCall x
  · simp [hx, Nat.add_comm]
  · simp [hx]

theorem counts_runCalls (event : String) (ca : Nat) (raw user : JSVal) :
    ∀ (calls : List ContCall) (st : List Slot),
      countStream (runCalls event ca raw user st calls)
        = countSuccess (runCalls event ca raw user st calls) := by
  intro calls
  induction calls with
  | nil => intro st; rfl
  | cons c rest ih =>
    intro st
    by_cases h : (truthy c.err || isFalseVal c.ok) = true
    · have h2 : truthy c.err = true ∨ isFalseVal c.ok = true := by simpa using h
      have hns : isSuccessCall (TraceEv.contCalled c.err c.ok) = false := by
        rcases h2 with h1 | h1 <;> simp [isSuccessCall, h1]
      simp only [runCalls, callbackStep, h, if_true, List.singleton_append]
      rw [countStream_cons, countStream_cons, countSuccess_cons, countSuccess_cons, hns]
      simp [isStreamEmit, isSuccessCall, ih st]
    · simp only [Bool.or_eq_true, not_or, Bool.not_eq_true] at h
      have hcond : (truthy c.err || isFalseVal c.ok) = false := by simp [h.1, h.2]
      simp only [runCalls, callbackStep, hcond, Bool.false_eq_true, if_false,
        List.singleton_append]
      rw [countStream_cons, countStream_cons, countSuccess_cons, countSuccess_cons]
      simp [isStreamEmit, isSuccessCall, h.1, h.2, ih]

theorem adjFrom_validateListener (p : TraceEv) (event : String) (n : Nat)
    (calls : List ContCall) (args : List JSVal) :
    adjFrom p (validateListener event n calls args) = true :=
  adjFrom_runCalls _ _ _ _ calls _ _

theorem counts_validateListener (event : String) (n : Nat)
    (calls : List ContCall) (args : List JSVal) :
    countStream (validateListener event n calls args)
      = countSuccess (validateListener event n calls args) :=
  counts_runCalls _ _ _ _ calls _

theorem adjOK_emitValidate (validators : Validators) (event : String)
    (ctx : JSVal) (chanArgs : List JSVal) :
    adjOK (emitValidate validators event ctx chanArgs) = true := by
  unfold emitValidate
  cases hv : validators event with
  | none => rfl
  | some nc =>
    obtain ⟨n, calls⟩ := nc
    simp only [adjOK, isStreamEmit, Bool.not_false, Bool.true_and]
    exact adjFrom_validateListener _ _ _ _ _

theorem counts_emitValidate (validators : Validators) (event : String)
    (ctx : JSVal) (chanArgs : List JSVal) :
    countStream (emitValidate validators event ctx chanArgs)
      = countSuccess (emitValidate validators event ctx chanArgs) := by
  unfold emitValidate
  cases hv : validators event with
  | none => rfl
  | some nc =>
    obtain ⟨n, calls⟩ := nc
    rw [countStream_cons, countSuccess_cons]
    simp [isStreamEmit, isSuccessCall, counts_validateListener]

/-! ## Validation pipeline claims -/

/-- Claim C1 (amended: the success notion of the continuation is a
falsy err together with ok not strictly false, not merely err loosely
equal to null): in the trace of one inbound client message, every
stream emission directly follows a continuation invocation the
callback accepted, no stream emission comes first, and the number of
stream emissions equals the number of accepted continuation
invocations, so there is exactly one stream emission per successful
validator completion and none without one; the preparser itself only
emits validate and error channels. -/
theorem stream_iff_success_completion (validators : Validators)
    (user dataMsg raw : JSVal) :
    adjOK (preparser validators user dataMsg raw) = true
    ∧ countStream (preparser validators user dataMsg raw)
        = countSuccess (preparser validators user dataMsg raw) := by
  cases dataMsg with
  | null =>
    exact ⟨adjOK_emitValidate _ _ _ _, counts_emitValidate _ _ _ _⟩
  | undefined => exact ⟨rfl, rfl⟩
  | bool b => exact ⟨rfl, rfl⟩
  | num n => exact ⟨rfl, rfl⟩
  | str s => exact ⟨rfl, rfl⟩
  | arr xs =>
    exact ⟨adjOK_emitValidate _ _ _ _, counts_emitValidate _ _ _ _⟩
  | errorObj m =>
    exact ⟨adjOK_emitValidate _ _ _ _, counts_emitValidate _ _ _ _⟩
  | obj fields =>
    by_cases hev : hasKey "event" fields = true
    · cases harg : getKey "args" fields with
      | arr l =>
        constructor
        · simp [preparser, typeofStr, truthy, isEventShaped, hev, harg,
            adjOK_emitValidate]
        · simp [preparser, typeofStr, truthy, isEventShaped, hev, harg,
            counts_emitValidate]
      | null =>
        constructor <;>
          simp [preparser, typeofStr, truthy, isEventShaped, hev, harg, adjOK,
            adjFrom, isStreamEmit, isSuccessCall, countStream, countSuccess,
            List.filter]
      | undefined =>
        constructor <;>
          simp [preparser, typeofStr, truthy, isEventShaped, hev, harg, adjOK,
            adjFrom, isStreamEmit, isSuccessCall, countStream, countSuccess,
            List.filter]
      | bool b =>
        constructor <;>
          simp [preparser, typeofStr, truthy, isEventShaped, hev, harg, adjOK,
            adjFrom, isStreamEmit, isSuccessCall, countStream, countSuccess,
            List.filter]
      | num n2 =>
        constructor <;>
          simp [preparser, typeofStr, truthy, isEventShaped, hev, harg, adjOK,
            adjFrom, isStreamEmit, isSuccessCall, countStream, countSuccess,
            List.filter]
      | str s2 =>
        constructor <;>
          simp [preparser, typeofStr, truthy, isEventShaped, hev, harg, adjOK,
            adjFrom, isStreamEmit, isSuccessCall, countStream, countSuccess,
            List.filter]
      | obj f2 =>
        constructor <;>
          simp [preparser, typeofStr, truthy, isEventShaped, hev, harg, adjOK,
            adjFrom, isStreamEmit, isSuccessCall, countStream, countSuccess,
            List.filter]
      | errorObj m2 =>
        constructor <;>
          simp [preparser, typeofStr, truthy, isEventShaped, hev, harg, adjOK,
            adjFrom, isStreamEmit, isSuccessCall, countStream, countSuccess,
            List.filter]
    · simp only [Bool.not_eq_true] at hev
      constructor
      · simp [preparser, typeofStr, truthy, isEventShaped, hev, adjOK_emitValidate]
      · simp [preparser, typeofStr, truthy, isEventShaped, hev, counts_emitValidate]

/-- The validator registry of the claim C1 counterexample: one
validator for the event foo, of arity 2, whose body calls the
continuation with the boolean false as err and true as ok. -/
def cexValidators : Validators := fun e =>
  if e = "foo" then some (2, [⟨.bool false, .bool true⟩]) else none

/-- Claim C1 counterexample: the continuation is invoked with the
boolean false as err, which is not loosely equal to null, yet the
trace contains one stream emission while containing no continuation
invocation with a nullish err at all, so a stream emission occurred
without any prior continuation call with err loosely equal to null. -/
theorem stream_without_nullish_err_cex :
    countStream (preparser cexValidators (.str "u")
        (.obj [("event", .str "foo"), ("args", .arr [.str "meh"])]) (.str "rw")) = 1
    ∧ countNullishSuccess (preparser cexValidators (.str "u")
        (.obj [("event", .str "foo"), ("args", .arr [.str "meh"])]) (.str "rw")) = 0 := by
  exact ⟨rfl, rfl⟩

theorem validateListener_concat (event : String) (n : Nat) (calls : List ContCall)
    (ds : List JSVal) (user raw : JSVal) :
    validateListener event n calls (ds ++ [user, raw])
      = runCalls event (n - 1) raw user (placeCallback (n - 1) ds) calls := by
  have h1 : popLast (ds ++ [user, raw]) = (raw, ds ++ [user]) := by
    have h2 : ds ++ [user, raw] = (ds ++ [user]) ++ [raw] := by simp
    rw [h2, popLast_concat]
  unfold validateListener
  rw [h1]
  simp [popLast_concat]

theorem placeCallback_cont (ca : Nat) (ds : List JSVal) :
    (placeCallback ca ds)[ca]? = some Slot.cont := by
  unfold placeCallback
  by_cases h : ca < ds.length
  · rw [if_pos h]
    have hlen : ca < (ds.map Slot.val).length := by simpa using h
    rw [List.getElem?_set_self hlen]
  · rw [if_neg h]
    have hlen : ((ds.map Slot.val) ++ List.replicate (ca - ds.length) Slot.unset).length
        = ca := by
      simp
      omega
    rw [List.getElem?_append_right (le_of_eq hlen)]
    simp [hlen]

theorem placeCallback_data (ca : Nat) (ds : List JSVal) (i : Nat) (hi : i < ca) :
    (placeCallback ca ds)[i]? = some (slotOf ds i) := by
  unfold placeCallback
  by_cases h : ca < ds.length
  · rw [if_pos h]
    rw [List.getElem?_set_ne (by omega : ca ≠ i)]
    cases hv : ds[i]? with
    | none =>
      have := List.getElem?_eq_none_iff.1 hv
      omega
    | some v => simp [List.getElem?_map, slotOf, hv]
  · rw [if_neg h]
    rw [List.getElem?_append]
    by_cases hil : i < ds.length
    · have h2 : i < ((ds.map Slot.val) ++ List.replicate (ca - ds.length) Slot.unset).length := by
        simp
        omega
      rw [if_pos h2]
      rw [List.getElem?_append]
      have h3 : i < (ds.map Slot.val).length := by simpa using hil
      rw [if_pos h3]
      cases hv : ds[i]? with
      | none =>
        have := List.getElem?_eq_none_iff.1 hv
        omega
      | some v => simp [List.getElem?_map, slotOf, hv]
    · have h2 : i < ((ds.map Slot.val) ++ List.replicate (ca - ds.length) Slot.unset).length := by
        simp
        omega
      rw [if_pos h2]
      rw [List.getElem?_append]
      have h3 : ¬ i < (ds.map Slot.val).length := by simpa using hil
      rw [if_neg h3]
      have h4 : i - (ds.map Slot.val).length < ca - ds.length := by
        simp
        omega
      rw [List.getElem?_replicate]
      have hnone : ds[i]? = none := List.getElem?_eq_none (by omega)
      simp [h4, slotOf, hnone]
      omega

theorem placeCallback_take (ca : Nat) (ds : List JSVal) :
    ((placeCallback ca ds).take ca).map slotVal
      = ds.take ca ++ List.replicate (ca - ds.length) JSVal.undefined := by
  unfold placeCallback
  by_cases h : ca < ds.length
  · rw [if_pos h]
    have h2 : ca - ds.length = 0 := by omega
    rw [h2, List.replicate_zero, List.append_nil]
    have hset : ((ds.map Slot.val).set ca Slot.cont).take ca
        = (ds.map Slot.val).take ca := by
      apply List.ext_getElem?
      intro i
      by_cases hi : i < ca
      · rw [List.getElem?_take_of_lt hi, List.getElem?_take_of_lt hi]
        exact List.getElem?_set_ne (by omega)
      · have hlen1 : (((ds.map Slot.val).set ca Slot.cont).take ca).length ≤ i := by
          simp [List.length_take]
          omega
        have hlen2 : ((ds.map Slot.val).take ca).length ≤ i := by
          simp [List.length_take]
          omega
        rw [List.getElem?_eq_none hlen1, List.getElem?_eq_none hlen2]
    rw [hset, List.map_take, List.map_map]
    have hid : slotVal ∘ Slot.val = fun v => v := by
      funext v
      rfl
    rw [hid, List.map_id']
  · rw [if_neg h]
    have hlen : ((ds.map Slot.val) ++ List.replicate (ca - ds.length) Slot.unset).length
        = ca := by
      simp
      omega
    rw [List.take_left' hlen, List.map_append, List.map_map, List.map_replicate]
    have hid : slotVal ∘ Slot.val = fun v => v := by
      funext v
      rfl
    rw [hid, List.map_id', List.take_of_length_le (by omega)]
    rfl

/-- Claim C3: when the validate channel of an event fires with the
data arguments followed by user and raw, the listener removes raw and
then user from the tail and runs the validator on the data array with
the continuation spliced in at position arity - 1; in that array every
position below arity - 1 holds the supplied data argument or is unset
when none was supplied, position arity - 1 holds the continuation, the
slice below the continuation reads as the data arguments truncated to
the first arity - 1 positions padded with unset, and an accepted
continuation invocation emits the stream event carrying exactly that
truncation followed by raw and then user. -/
theorem validator_callback_placement (event : String) (n : Nat) (ds : List JSVal)
    (user raw : JSVal) (calls : List ContCall) (c : ContCall)
    (hn : 1 ≤ n) (hsucc : truthy c.err = false) (hok : isFalseVal c.ok = false) :
    validateListener event n calls (ds ++ [user, raw])
        = runCalls event (n - 1) raw user (placeCallback (n - 1) ds) calls
    ∧ (placeCallback (n - 1) ds)[n - 1]? = some Slot.cont
    ∧ (∀ i, i < n - 1 → (placeCallback (n - 1) ds)[i]? = some (slotOf ds i))
    ∧ ((placeCallback (n - 1) ds).take (n - 1)).map slotVal
        = ds.take (n - 1) ++ List.replicate (n - 1 - ds.length) JSVal.undefined
    ∧ (callbackStep event (n - 1) raw user (placeCallback (n - 1) ds) c).2
        = [.emit (.stream event)
            ((ds.take (n - 1) ++ List.replicate (n - 1 - ds.length) JSVal.undefined)
              ++ [raw, user])] := by
  refine ⟨validateListener_concat _ _ _ _ _ _, placeCallback_cont _ _,
    fun i hi => placeCallback_data _ _ i hi, placeCallback_take _ _, ?_⟩
  have hcond : (truthy c.err || isFalseVal c.ok) = false := by
    simp [hsucc, hok]
  have h5 : List.take (n - 1) (List.map slotVal (placeCallback (n - 1) ds))
      = List.take (n - 1) ds ++ List.replicate (n - 1 - ds.length) JSVal.undefined := by
    rw [← List.map_take]
    exact placeCallback_take _ _
  simp [callbackStep, hcond, h5, List.append_assoc]

/-- Claim C3 witness: an arity-5 validator fed one data argument plus
user and raw, and an accepting continuation call. -/
theorem validator_callback_placement_witness :
    1 ≤ 5 ∧ truthy JSVal.undefined = false ∧ isFalseVal (JSVal.bool true) = false
    ∧ (validateListener "foo" 5 [] ([JSVal.str "foo"] ++ [JSVal.str "u", JSVal.str "rw"])
          = runCalls "foo" 4 (JSVal.str "rw") (JSVal.str "u")
              (placeCallback 4 [JSVal.str "foo"]) []
        ∧ (placeCallback 4 [JSVal.str "foo"])[4]? = some Slot.cont
        ∧ (∀ i, i < 4 → (placeCallback 4 [JSVal.str "foo"])[i]?
            = some (slotOf [JSVal.str "foo"] i))
        ∧ ((placeCallback 4 [JSVal.str "foo"]).take 4).map slotVal
            = [JSVal.str "foo"].take 4 ++ List.replicate (4 - 1) JSVal.undefined
        ∧ (callbackStep "foo" 4 (JSVal.str "rw") (JSVal.str "u")
              (placeCallback 4 [JSVal.str "foo"]) ⟨JSVal.undefined, JSVal.bool true⟩).2
            = [.emit (.stream "foo")
                (([JSVal.str "foo"].take 4 ++ List.replicate (4 - 1) JSVal.undefined)
                  ++ [JSVal.str "rw", JSVal.str "u"])]) :=
  ⟨by decide, rfl, rfl,
    validator_callback_placement "foo" 5 [JSVal.str "foo"] (JSVal.str "u")
      (JSVal.str "rw") [] ⟨JSVal.undefined, JSVal.bool true⟩ (by decide) rfl rfl⟩

/-- Claim C4 counterexample: the continuation invoked with the number
zero as err, which is not loosely equal to null but is falsy, takes
the success branch and emits the stream event rather than the
validation error the claim requires. -/
theorem validation_falsy_error_cex :
    isNullish (JSVal.num 0) = false
    ∧ (callbackStep "foo" 1 (JSVal.str "rawp") (JSVal.str "usr")
          [Slot.val (JSVal.str "meh"), Slot.cont] ⟨JSVal.num 0, JSVal.bool true⟩).2
        = [.emit (.stream "foo") [JSVal.str "meh", JSVal.str "rawp", JSVal.str "usr"]] := by
  exact ⟨rfl, rfl⟩

/-- Claim C4 (amended: the failure branch is taken on a truthy err or
on ok strictly equal to false; a falsy but non-null err such as the
number zero, the empty string or the boolean false takes the success
branch): on such a continuation invocation the validation error is
emitted with the err value (or a fresh failure error when err is
falsy) and a context holding the event name, the raw payload and the
user, the argument array is left alone, and no stream emission is
produced for that invocation. -/
theorem validation_failure_branch (event : String) (ca : Nat) (raw user : JSVal)
    (st : List Slot) (c : ContCall)
    (h : truthy c.err = true ∨ isFalseVal c.ok = true) :
    callbackStep event ca raw user st c
        = (st, [.emit .errorValidation
            [if truthy c.err then c.err else .errorObj "Failed to validate the data",
             validationCtx event raw user]])
    ∧ countStream (callbackStep event ca raw user st c).2 = 0 := by
  have hcond : (truthy c.err || isFalseVal c.ok) = true := by
    rcases h with h | h <;> simp [h]
  constructor
  · simp [callbackStep, hcond]
  · simp [callbackStep, hcond, countStream, List.filter, isStreamEmit]

/-- Claim C4 witness: a rejecting continuation call with a truthy
error object. -/
theorem validation_failure_branch_witness :
    (truthy (JSVal.errorObj "bad") = true ∨ isFalseVal JSVal.undefined = true)
    ∧ (callbackStep "foo" 1 (JSVal.str "rawp") (JSVal.str "usr") [Slot.cont]
          ⟨JSVal.errorObj "bad", JSVal.undefined⟩
        = ([Slot.cont], [.emit .errorValidation
            [if truthy (JSVal.errorObj "bad") then JSVal.errorObj "bad"
             else .errorObj "Failed to validate the data",
             validationCtx "foo" (JSVal.str "rawp") (JSVal.str "usr")]])
      ∧ countStream (callbackStep "foo" 1 (JSVal.str "rawp") (JSVal.str "usr")
          [Slot.cont] ⟨JSVal.errorObj "bad", JSVal.undefined⟩).2 = 0) :=
  ⟨Or.inl rfl,
    validation_failure_branch "foo" 1 (JSVal.str "rawp") (JSVal.str "usr")
      [Slot.cont] ⟨JSVal.errorObj "bad", JSVal.undefined⟩ (Or.inl rfl)⟩

end Primacron
